import Mathlib

/-!
Shallow embedding of the aurovas ingestion-and-aggregation pipeline
(`src/parser/transform.py`, `src/parser/transform_data.py`,
`src/parser/xml_loader.py`) and proofs settling the frozen claims.

Modelling conventions:
* A pandas cell is a `Cell`: `absent` models `NaN` (missing key / missing
  column after `reindex`), `null` models Python `None` (empty XML element),
  `text s` models a string value.  `astype(str)` renders these as
  `"nan"` / `"None"` / the string itself, exactly as Python does.
* Exact numeric values are carried as unreduced fractions `Dec`
  (numerator/denominator) so that every pipeline function is
  kernel-computable; `Dec.toRat` interprets them as rationals in theorem
  statements.  All float arithmetic performed by the pipeline on the data
  that the claims touch (sums, products, division by 100 of decimal
  literals) is exact, so rationals are a faithful model of it.
* Dates are triples `SDate`; `parseFecha` models
  `pd.to_datetime(errors="coerce", dayfirst=True)` on the `dd/mm/yyyy`
  day-first forms used by the data (falling back to month-first when the
  day-first reading is impossible, as pandas does); anything else coerces
  to `none` (NaT).  Two-digit years and textual month formats are not
  modelled; no claim depends on them.
* A raw table (`DF`) is a column list plus rows given as association
  lists; looking up a column that is not in `cols` yields `absent`,
  which is also what `reindex` produces for a missing column.
* The field `anio` transliterates the source column name `año`.
-/

/-- A raw pandas cell: `NaN`, Python `None`, or a string. -/
inductive Cell where
  | absent : Cell
  | null : Cell
  | text : String → Cell
  deriving DecidableEq, Repr

/-- Python `str(...)` of a cell, as `astype(str)` applies it:
`str(nan) = "nan"`, `str(None) = "None"`. -/
def Cell.pyStr : Cell → String
  | .absent => "nan"
  | .null => "None"
  | .text s => s

/-- Strip whitespace from both ends of a character list (Python `str.strip`). -/
def trimL (cs : List Char) : List Char :=
  ((cs.dropWhile Char.isWhitespace).reverse.dropWhile Char.isWhitespace).reverse

/-- Lower-case a character list (`str.lower`; ASCII, as the data requires). -/
def lowerL (cs : List Char) : List Char := cs.map Char.toLower

/-- `_sanitize_str` from `transform.py`: `astype(str).str.strip()` then
`replace({"": NA, "None": NA, "NaN": NA})`.  Note the replacement map lists
`"NaN"`, while `astype(str)` renders an actually missing value as `"nan"`
(lower case), which therefore survives sanitisation as text. -/
def sanitizeCell (c : Cell) : Option String :=
  let cs := trimL c.pyStr.toList
  if cs = [] ∨ cs = "None".toList ∨ cs = "NaN".toList then none
  else some (String.mk cs)

/-- Exact decimal number as an unreduced fraction; `den` is a positive
power of ten for every value the pipeline builds. -/
structure Dec where
  num : Int
  den : Nat
  deriving DecidableEq, Repr

/-- Interpret a `Dec` as the rational it denotes. -/
def Dec.toRat (d : Dec) : Rat := (d.num : Rat) / (d.den : Rat)

/-- Float addition (exact on the data in scope). -/
def Dec.add (a b : Dec) : Dec := ⟨a.num * b.den + b.num * a.den, a.den * b.den⟩

/-- Float multiplication (exact on the data in scope). -/
def Dec.mul (a b : Dec) : Dec := ⟨a.num * b.num, a.den * b.den⟩

/-- Division by `100.0`, as in `precio * valor / 100.0`. -/
def Dec.div100 (a : Dec) : Dec := ⟨a.num, a.den * 100⟩

/-- `x == 0` on floats. -/
def Dec.isZero (a : Dec) : Bool := a.num = 0

def digitsVal (cs : List Char) : Nat :=
  cs.foldl (fun a c => a * 10 + (c.toNat - 48)) 0

/-- Parse an unsigned float literal `digits[.digits][(e|E)[+|-]digits]`
with at least one mantissa digit, as accepted both by `pd.to_numeric` and
by Python `float` (underscored literals are not modelled; none occur). -/
def parseUnsigned (cs : List Char) : Option Dec :=
  let mant := cs.takeWhile (fun c => c ≠ 'e' ∧ c ≠ 'E')
  let expPart := cs.dropWhile (fun c => c ≠ 'e' ∧ c ≠ 'E')
  let ip := mant.takeWhile (· ≠ '.')
  let afterDot := mant.dropWhile (· ≠ '.')
  let fp? : Option (List Char) :=
    match afterDot with
    | [] => some []
    | '.' :: t => if t.contains '.' then none else some t
    | _ => none
  match fp? with
  | none => none
  | some fp =>
    if ip.all Char.isDigit ∧ fp.all Char.isDigit ∧ (ip ++ fp) ≠ [] then
      let base : Dec := ⟨(digitsVal (ip ++ fp) : Int), 10 ^ fp.length⟩
      match expPart with
      | [] => some base
      | _ :: ex =>
        let (eneg, eds) :=
          match ex with
          | '-' :: r => (true, r)
          | '+' :: r => (false, r)
          | r => (false, r)
        if eds ≠ [] ∧ eds.all Char.isDigit then
          if eneg then some ⟨base.num, base.den * 10 ^ digitsVal eds⟩
          else some ⟨base.num * (10 ^ digitsVal eds : Nat), base.den⟩
        else none
    else none

/-- `pd.to_numeric(errors="coerce")` on a cleaned character list (only
digits, `.` and `-` can remain at this point of `_to_num`). -/
def parseNumeric (cs : List Char) : Option Dec :=
  match cs with
  | '-' :: rest => (parseUnsigned rest).map fun d => ⟨-d.num, d.den⟩
  | rest => parseUnsigned rest

/-- `_to_num` from `transform.py` (Series version, applied cell-wise):
sanitise, keep only `[\d,.\-]`, drop the thousands dots, turn the decimal
comma into a dot, coerce, and fill failures with `0.0`. -/
def to_num_series (c : Cell) : Dec :=
  match sanitizeCell c with
  | none => ⟨0, 1⟩
  | some s =>
    let kept := s.toList.filter fun ch => ch.isDigit || ch = ',' || ch = '.' || ch = '-'
    let noDots := kept.filter (· ≠ '.')
    let swapped := noDots.map fun ch => if ch = ',' then '.' else ch
    match parseNumeric swapped with
    | some d => d
    | none => ⟨0, 1⟩

/-- Python `float(str)`: `none` = raises `ValueError`; `some none` = a
non-finite result (`nan`/`inf`, which compares unequal to `0`);
`some (some d)` = a finite value. -/
def pyFloatLit (s : String) : Option (Option Dec) :=
  let cs := trimL s.toList
  let (neg, rest) :=
    match cs with
    | '-' :: r => (true, r)
    | '+' :: r => (false, r)
    | r => (false, r)
  if lowerL rest = "nan".toList ∨ lowerL rest = "inf".toList ∨
      lowerL rest = "infinity".toList then some none
  else
    match parseUnsigned rest with
    | some d => some (some (if neg then ⟨-d.num, d.den⟩ else d))
    | none => none

/-- `_to_num` from `transform_data.py`:
`float(str(val).replace(",", "."))` with `except: return 0.0`.
`none` models a NaN result (`float("nan")` does not raise). -/
def to_num_data (c : Cell) : Option Dec :=
  match c with
  | .absent => none
  | .null => some ⟨0, 1⟩
  | .text s =>
    let swapped := String.mk (s.toList.map fun ch => if ch = ',' then '.' else ch)
    match pyFloatLit swapped with
    | none => some ⟨0, 1⟩
    | some v => v

/-- A calendar date. -/
structure SDate where
  year : Nat
  month : Nat
  day : Nat
  deriving DecidableEq, Repr

def leapYear (y : Nat) : Bool := (y % 4 = 0 ∧ y % 100 ≠ 0) ∨ y % 400 = 0

def daysInMonth (y m : Nat) : Nat :=
  if m = 2 then (if leapYear y then 29 else 28)
  else if m = 4 ∨ m = 6 ∨ m = 9 ∨ m = 11 then 30
  else 31

def validDate (y m d : Nat) : Bool :=
  1 ≤ m ∧ m ≤ 12 ∧ 1 ≤ d ∧ d ≤ daysInMonth y m

def natOf? (cs : List Char) : Option Nat :=
  if cs ≠ [] ∧ cs.all Char.isDigit then some (digitsVal cs) else none

def splitOnCh (sep : Char) : List Char → List (List Char)
  | [] => [[]]
  | c :: rest =>
    let r := splitOnCh sep rest
    if c = sep then [] :: r
    else
      match r with
      | [] => [[c]]
      | h :: t => (c :: h) :: t

/-- `pd.to_datetime(errors="coerce", dayfirst=True)` on the slash-separated
numeric dates the source uses: try day-first, fall back to month-first when
day-first is impossible, coerce everything else to NaT (`none`). -/
def parseFecha (s : String) : Option SDate :=
  match splitOnCh '/' (trimL s.toList) with
  | [a, b, c] =>
    match natOf? a, natOf? b, natOf? c with
    | some x, some y, some z =>
      if c.length = 4 then
        if validDate z y x then some ⟨z, y, x⟩
        else if validDate z x y then some ⟨z, x, y⟩
        else none
      else none
    | _, _, _ => none
  | _ => none

/-- A raw row: association list from source column name to cell. -/
def Row : Type := List (String × Cell)

instance : DecidableEq Row := inferInstanceAs (DecidableEq (List (String × Cell)))

/-- Cell of a row for a column that exists in the frame: a missing entry is
`NaN` (how `pd.DataFrame(rows)` fills absent keys). -/
def rowCell (r : Row) (c : String) : Cell :=
  match r.find? (fun p => p.1 = c) with
  | some p => p.2
  | none => .absent

/-- A raw DataFrame: its columns and its rows. -/
structure DF where
  cols : List String
  rows : List Row

/-- Column access after `reindex`: a column missing from the frame is
created filled with `NaN`. -/
def dfCell (df : DF) (r : Row) (c : String) : Cell :=
  if c ∈ df.cols then rowCell r c else .absent

/-- An output table: the column names the code gives it plus its rows. -/
structure Table (α : Type) where
  cols : List String
  rows : List α
  deriving DecidableEq, Repr

/-! ## `parser/transform.py` — the pipeline imported by `app.py` -/

namespace Transform

/-- A cleaned listings row (`clean_inmuebles` output). -/
structure CleanInm where
  fecha : Option SDate
  agente : String
  tipo : String
  precio : Dec
  precio_total : Dec
  anio : Option Nat
  mes : Option Nat
  deriving DecidableEq, Repr

/-- A cleaned demands row (`clean_demandas` output). -/
structure CleanDem where
  fecha : Option SDate
  agente : String
  tipo : String
  anio : Option Nat
  mes : Option Nat
  deriving DecidableEq, Repr

/-- A cleaned transactions row (`clean_operaciones` output).  Note that
this cleaning keeps no `estado`, `cod_operacion` or `precio_operacion`
column and sums the three commission values directly. -/
structure CleanOp where
  fecha : Option SDate
  agente : String
  tipo : String
  com_prop : Dec
  com_dem : Dec
  com_cli : Dec
  comision_total : Dec
  anio : Option Nat
  mes : Option Nat
  deriving DecidableEq, Repr

def inmColNames : List String :=
  ["fecha", "agente", "tipo", "precio", "precio_total", "año", "mes"]

def demColNames : List String := ["fecha", "agente", "tipo", "año", "mes"]

def opColNames : List String :=
  ["fecha", "agente", "tipo", "com_prop", "com_dem", "com_cli",
   "comision_total", "año", "mes"]

/-- Parsed date of a sanitised cell (`_to_datetime ∘ _sanitize_str`). -/
def fechaOf (df : DF) (r : Row) (c : String) : Option SDate :=
  (sanitizeCell (dfCell df r c)).bind parseFecha

/-- `clean_inmuebles`: rename/reindex to the five kept columns, sanitise,
default agent/type, coerce prices, drop only rows without a date, then
add `año`/`mes` from the date. -/
def clean_inmuebles (d : Option DF) : Table CleanInm :=
  match d with
  | none => ⟨inmColNames, []⟩
  | some df =>
    ⟨inmColNames,
      df.rows.filterMap fun r =>
        match fechaOf df r "fechaing" with
        | none => none
        | some dt =>
          some
            { fecha := some dt
              agente := (sanitizeCell (dfCell df r "agente_captador")).getD "Desconocido"
              tipo := (sanitizeCell (dfCell df r "tipo_operacion")).getD "Sin especificar"
              precio := to_num_series (dfCell df r "precio")
              precio_total := to_num_series (dfCell df r "precio_total")
              anio := some dt.year
              mes := some dt.month }⟩

/-- `clean_demandas`. -/
def clean_demandas (d : Option DF) : Table CleanDem :=
  match d with
  | none => ⟨demColNames, []⟩
  | some df =>
    ⟨demColNames,
      df.rows.filterMap fun r =>
        match fechaOf df r "fec_alta" with
        | none => none
        | some dt =>
          some
            { fecha := some dt
              agente := (sanitizeCell (dfCell df r "captador")).getD "Desconocido"
              tipo := (sanitizeCell (dfCell df r "tipo_operacion")).getD "Sin especificar"
              anio := some dt.year
              mes := some dt.month }⟩

/-- `clean_operaciones`: `comision_total = com_prop + com_dem + com_cli`
(plain sum of the parsed values; the `tipoCom_*` kind tags are not read). -/
def clean_operaciones (d : Option DF) : Table CleanOp :=
  match d with
  | none => ⟨opColNames, []⟩
  | some df =>
    ⟨opColNames,
      df.rows.filterMap fun r =>
        match fechaOf df r "fecha" with
        | none => none
        | some dt =>
          let cp := to_num_series (dfCell df r "valorCom_propietario")
          let cd := to_num_series (dfCell df r "valorCom_demandante")
          let cc := to_num_series (dfCell df r "valorCom_cliente")
          some
            { fecha := some dt
              agente := (sanitizeCell (dfCell df r "vendedor")).getD "Desconocido"
              tipo := (sanitizeCell (dfCell df r "tipo")).getD "Sin especificar"
              com_prop := cp
              com_dem := cd
              com_cli := cc
              comision_total := (cp.add cd).add cc
              anio := some dt.year
              mes := some dt.month }⟩

/-- Ascending comparison on optional naturals (grouping keys are always
`some` since pandas drops null keys before grouping). -/
def leON : Option Nat → Option Nat → Bool
  | none, _ => true
  | some _, none => false
  | some x, some y => x ≤ y

def leChars : List Char → List Char → Bool
  | [], _ => true
  | _ :: _, [] => false
  | a :: as, b :: bs => if a = b then leChars as bs else decide (a < b)

def leStr (a b : String) : Bool := leChars a.toList b.toList

/-- Grouping key of a listings/demands summary: `(año, mes, agente, tipo)`. -/
abbrev Key4 := Option Nat × Option Nat × String × String

def key4Le (a b : Key4) : Bool :=
  if a.1 ≠ b.1 then leON a.1 b.1
  else if a.2.1 ≠ b.2.1 then leON a.2.1 b.2.1
  else if a.2.2.1 ≠ b.2.2.1 then leStr a.2.2.1 b.2.2.1
  else leStr a.2.2.2 b.2.2.2

/-- Grouping key of the commissions summary: `(año, mes, agente)`. -/
abbrev Key3 := Option Nat × Option Nat × String

def key3Le (a b : Key3) : Bool :=
  if a.1 ≠ b.1 then leON a.1 b.1
  else if a.2.1 ≠ b.2.1 then leON a.2.1 b.2.1
  else leStr a.2.2 b.2.2

/-- A listings summary row. -/
structure ResCapt where
  anio : Option Nat
  mes : Option Nat
  agente : String
  tipo : String
  num_inmuebles : Nat
  deriving DecidableEq, Repr

/-- A demands summary row. -/
structure ResDem where
  anio : Option Nat
  mes : Option Nat
  agente : String
  tipo : String
  num_demandas : Nat
  deriving DecidableEq, Repr

/-- A commissions summary row. -/
structure ResCom where
  anio : Option Nat
  mes : Option Nat
  agente : String
  comision_total : Dec
  deriving DecidableEq, Repr

def capKey (r : CleanInm) : Key4 := (r.anio, r.mes, r.agente, r.tipo)

def demKey (r : CleanDem) : Key4 := (r.anio, r.mes, r.agente, r.tipo)

def comKey (r : CleanOp) : Key3 := (r.anio, r.mes, r.agente)

def capColNames : List String := ["año", "mes", "agente", "tipo", "num_inmuebles"]

def demColNames2 : List String := ["año", "mes", "agente", "tipo", "num_demandas"]

def comColNames : List String := ["año", "mes", "agente", "comision_total"]

/-- `resumen_captaciones`: empty input keeps the schema; otherwise group by
`(año, mes, agente, tipo)` (pandas drops rows with a null key), count each
group, and sort ascending by the key. -/
def resumen_captaciones (t : Table CleanInm) : Table ResCapt :=
  if t.rows = [] then ⟨capColNames, []⟩
  else
    let rs := t.rows.filter fun r => r.anio.isSome && r.mes.isSome
    let ks := List.insertionSort (fun a b => key4Le a b = true) (rs.map capKey).dedup
    ⟨capColNames,
      ks.map fun k =>
        ⟨k.1, k.2.1, k.2.2.1, k.2.2.2, rs.countP fun r => decide (capKey r = k)⟩⟩

/-- `resumen_demandas`. -/
def resumen_demandas (t : Table CleanDem) : Table ResDem :=
  if t.rows = [] then ⟨demColNames2, []⟩
  else
    let rs := t.rows.filter fun r => r.anio.isSome && r.mes.isSome
    let ks := List.insertionSort (fun a b => key4Le a b = true) (rs.map demKey).dedup
    ⟨demColNames2,
      ks.map fun k =>
        ⟨k.1, k.2.1, k.2.2.1, k.2.2.2, rs.countP fun r => decide (demKey r = k)⟩⟩

/-- `resumen_comisiones`: group by `(año, mes, agente)` and sum
`comision_total`.  There is no operation count in this summary. -/
def resumen_comisiones (t : Table CleanOp) : Table ResCom :=
  if t.rows = [] then ⟨comColNames, []⟩
  else
    let rs := t.rows.filter fun r => r.anio.isSome && r.mes.isSome
    let ks := List.insertionSort (fun a b => key3Le a b = true) (rs.map comKey).dedup
    ⟨comColNames,
      ks.map fun k =>
        ⟨k.1, k.2.1, k.2.2,
          (rs.filter fun r => decide (comKey r = k)).foldl
            (fun acc r => acc.add r.comision_total) ⟨0, 1⟩⟩⟩

/-- The bundle `build_all_resumenes` returns (its six dictionary keys). -/
structure PipelineResult where
  captaciones : Table ResCapt
  demandas : Table ResDem
  comisiones : Table ResCom
  inmuebles_limpio : Table CleanInm
  demandas_limpio : Table CleanDem
  operaciones_limpio : Table CleanOp
  deriving DecidableEq

/-- `build_all_resumenes` from `transform.py`: clean each optional domain
and summarise it; never raises. -/
def build_all_resumenes (i d o : Option DF) : PipelineResult :=
  let di := clean_inmuebles i
  let dd := clean_demandas d
  let dp := clean_operaciones o
  { captaciones := resumen_captaciones di
    demandas := resumen_demandas dd
    comisiones := resumen_comisiones dp
    inmuebles_limpio := di
    demandas_limpio := dd
    operaciones_limpio := dp }

end Transform

/-! ## `parser/transform_data.py` — the alternative pipeline -/

namespace TransformData

/-- `row.get(c, default)` inside `df.apply(..., axis=1)`: the row carries
every frame column (a missing entry is `NaN`); a column the frame lacks
falls back to the Python default. -/
def rowGet (df : DF) (r : Row) (c : String) (dflt : Cell) : Cell :=
  if c ∈ df.cols then rowCell r c else dflt

/-- `str(row.get(f"tipoCom_{q}", "") or "")`: `None` and `""` are falsy
and give `""`; `NaN` is truthy and prints as `"nan"`. -/
def tipoComStr (c : Cell) : List Char :=
  match c with
  | .absent => "nan".toList
  | .null => []
  | .text s => s.toList

/-- Option-valued float addition: a non-finite operand poisons the sum. -/
def addO : Option Dec → Option Dec → Option Dec
  | some a, some b => some (a.add b)
  | _, _ => none

/-- `precio * valor / 100.0` on option-valued floats. -/
def pctO : Option Dec → Option Dec → Option Dec
  | some p, some v => some ((p.mul v).div100)
  | _, _ => none

/-- `calcular_comision_total` from `transform_data.py`: iterate over
propietario/demandante/cliente; skip a party whose parsed value equals 0;
add `precio * valor / 100` when the trimmed lower-cased kind tag contains
`%`, else add the value as a flat amount. -/
def calcular_comision_total (df : DF) (r : Row) : Option Dec :=
  let precio := to_num_data (rowGet df r "precio_operacion" (.text "0.0"))
  List.foldl
    (fun total quien =>
      let tipo := lowerL (trimL (tipoComStr (rowGet df r ("tipoCom_" ++ quien) (.text ""))))
      let valor := to_num_data (rowGet df r ("valorCom_" ++ quien) (.text "0.0"))
      if (valor.map Dec.isZero).getD false then total
      else addO total (if tipo.contains '%' then pctO precio valor else valor))
    (some ⟨0, 1⟩) ["propietario", "demandante", "cliente"]

/-- `_parse_fecha` from `transform_data.py`: `pd.to_datetime` directly on
the raw column (the XML loader already stripped the text); a missing
column broadcasts NaT. -/
def parse_fecha (df : DF) (r : Row) : Option SDate :=
  if "fecha" ∈ df.cols then
    match rowCell r "fecha" with
    | .text s => parseFecha s
    | _ => none
  else none

/-- Agent column: `vendedor` with nulls filled as `"(Sin asignar)"`, or
that constant when the column is missing. -/
def agenteData (df : DF) (r : Row) : String :=
  if "vendedor" ∈ df.cols then
    match rowCell r "vendedor" with
    | .text s => s
    | _ => "(Sin asignar)"
  else "(Sin asignar)"

/-- `df_ops["estado"].isin({"Firmada", "Pagado"})` for one row. -/
def estadoValido (r : Row) : Bool :=
  rowCell r "estado" = Cell.text "Firmada" ∨ rowCell r "estado" = Cell.text "Pagado"

/-- A row of the `operaciones_limpio` detail table of `generar_resumenes`
(its seven `detalle_cols`).  A detail column whose source column is
missing is created as `None`. -/
structure DetalleOp where
  cod_operacion : Cell
  fecha : Option SDate
  agente : String
  tipo : Cell
  estado : Cell
  precio_operacion : Cell
  comision_total : Option Dec
  deriving DecidableEq, Repr

/-- A row of the monthly commissions summary of `generar_resumenes`. -/
structure ResumenData where
  anio : Nat
  mes : Nat
  agente : String
  total_comision : Dec
  num_ops : Nat
  deriving DecidableEq, Repr

def detColNames : List String :=
  ["cod_operacion", "fecha", "agente", "tipo", "estado", "precio_operacion",
   "comision_total"]

def resColNames : List String := ["año", "mes", "agente", "total_comision", "num_ops"]

def mkDetalle (df : DF) (r : Row) : DetalleOp :=
  { cod_operacion := rowGet df r "cod_operacion" .null
    fecha := parse_fecha df r
    agente := agenteData df r
    tipo := rowGet df r "tipo" .null
    estado := rowCell r "estado"
    precio_operacion := rowGet df r "precio_operacion" .null
    comision_total := calcular_comision_total df r }

/-- Grouping key `(año, mes, agente)` of a dated valid row. -/
def keyData (df : DF) (r : Row) : Nat × Nat × String :=
  match parse_fecha df r with
  | some dt => (dt.year, dt.month, agenteData df r)
  | none => (0, 0, agenteData df r)

def keyDataLe (a b : Nat × Nat × String) : Bool :=
  if a.1 ≠ b.1 then a.1 ≤ b.1
  else if a.2.1 ≠ b.2.1 then a.2.1 ≤ b.2.1
  else Transform.leStr a.2.2 b.2.2

/-- `1` when a cell counts as non-null for pandas `count`. -/
def nonNullCell : Cell → Bool
  | .text _ => true
  | _ => false

/-- The monthly summary built from the valid (status-filtered) rows:
group the date-parseable ones by `(año, mes, agente)`, sum
`comision_total` (pandas `sum` skips NaN) and count non-null
`cod_operacion` values. -/
def mkResumen (df : DF) (validas : List Row) : Table ResumenData :=
  let datadas := validas.filter fun r => (parse_fecha df r).isSome
  let ks := List.insertionSort (fun a b => keyDataLe a b = true)
    (datadas.map (keyData df)).dedup
  ⟨resColNames,
    ks.map fun k =>
      let grp := datadas.filter fun r => decide (keyData df r = k)
      ⟨k.1, k.2.1, k.2.2,
        grp.foldl (fun acc r => acc.add ((calcular_comision_total df r).getD ⟨0, 1⟩)) ⟨0, 1⟩,
        grp.countP fun r => nonNullCell (rowGet df r "cod_operacion" .null)⟩⟩

/-- The pair of tables `generar_resumenes` may put into its output dict:
`none` marks a key it did not produce. -/
structure DataOut where
  comisiones : Option (Table ResumenData)
  operaciones_limpio : Option (Table DetalleOp)
  deriving DecidableEq, Repr

/-- `generar_resumenes`: with no / empty `operaciones` it returns an empty
dict; a missing `estado` column raises (`none`), as does aggregating a
missing `cod_operacion` column when some row passed the status filter;
otherwise it returns the summary and the status-filtered detail table. -/
def generar_resumenes (dOp : Option DF) : Option DataOut :=
  match dOp with
  | none => some ⟨none, none⟩
  | some df =>
    if df.rows = [] ∨ df.cols = [] then some ⟨none, none⟩
    else if "estado" ∉ df.cols then none
    else
      let validas := df.rows.filter estadoValido
      if validas ≠ [] ∧ "cod_operacion" ∉ df.cols then none
      else
        some ⟨some (mkResumen df validas), some ⟨detColNames, validas.map (mkDetalle df)⟩⟩

/-- `build_all_resumenes` from `transform_data.py`: only the transactions
frame is ever read by `generar_resumenes`. -/
def build_all_resumenes (i d o : Option DF) : Option DataOut :=
  generar_resumenes o

end TransformData

/-! ## `parser/xml_loader.py` — archive/folder member resolution -/

namespace XmlLoader

/-- Whether `pat` occurs at the head of `hay`. -/
def leadsList : List Char → List Char → Bool
  | [], _ => true
  | _ :: _, [] => false
  | a :: as, b :: bs => a = b && leadsList as bs

/-- Whether `pat` occurs anywhere inside `hay` (Python `pat in hay`). -/
def occursIn (pat : List Char) : List Char → Bool
  | [] => leadsList pat []
  | h :: t => leadsList pat (h :: t) || occursIn pat t

/-- Case-insensitive substring test used by `_find_member`:
`contains.lower() in name.lower()`. -/
def containsCI (name pat : String) : Bool :=
  occursIn (lowerL pat.toList) (lowerL name.toList)

/-- `_find_member`: first member name containing the pattern. -/
def find_member (names : List String) (pat : String) : Option String :=
  names.find? fun n => containsCI n pat

/-- `TARGETS`: domain key ↦ expected file name (the node tag plays no role
in member resolution). -/
def targets : List (String × String) :=
  [("inmuebles", "INMUEBLES.xml"), ("demandas", "DEMANDAS.xml"),
   ("operaciones", "OPERACIONES.xml"), ("usuarios", "USUARIOS.xml")]

/-- Member resolution of `load_zip_to_dfs` on the archive's name list
(`load_folder_to_dfs` applies the same matching to the folder's `*.xml`
names): collect the first match per domain; raise (`none`) when no domain
matched at all. -/
def load_zip_names (names : List String) : Option (List (String × String)) :=
  let out := targets.filterMap fun kp => (find_member names kp.2).map fun m => (kp.1, m)
  if out = [] then none else some out

end XmlLoader

/-! ## General list lemmas used by the aggregation proofs -/

theorem sum_map_add_nat {γ : Type} (f g : γ → Nat) :
    ∀ l : List γ, (l.map fun x => f x + g x).sum = (l.map f).sum + (l.map g).sum
  | [] => rfl
  | x :: l => by
    simp only [List.map_cons, List.sum_cons, sum_map_add_nat f g l]
    omega

theorem sum_map_indicator {β : Type} [DecidableEq β] (a : β) :
    ∀ l : List β, l.Nodup →
      (l.map fun k => if a = k then (1 : Nat) else 0).sum = if a ∈ l then 1 else 0
  | [], _ => rfl
  | b :: l, h => by
    simp only [List.map_cons, List.sum_cons]
    rcases List.nodup_cons.mp h with ⟨hb, hl⟩
    by_cases hab : a = b
    · subst hab
      have : a ∉ l := hb
      simp [sum_map_indicator a l hl, this]
    · simp [hab, sum_map_indicator a l hl, List.mem_cons]

/-- Each row lies in exactly one group, so summing per-group counts over
the keys selected by `p` counts exactly the rows whose key satisfies `p`. -/
theorem sum_countP_groups {α β : Type} [DecidableEq β] (key : α → β) (p : β → Bool) :
    ∀ (rows : List α) (ks : List β), ks.Nodup → (∀ r ∈ rows, key r ∈ ks) →
      ((ks.filter p).map fun k => rows.countP fun r => decide (key r = k)).sum
        = rows.countP fun r => p (key r)
  | [], ks, _, _ => by simp
  | r :: rows, ks, hnd, hcov => by
    have hcov' : ∀ x ∈ rows, key x ∈ ks := fun x hx => hcov x (List.mem_cons_of_mem r hx)
    have ih := sum_countP_groups key p rows ks hnd hcov'
    simp only [List.countP_cons, decide_eq_true_eq]
    have hsplit :
        ((ks.filter p).map fun k =>
            (rows.countP fun x => decide (key x = k)) + if key r = k then (1 : Nat) else 0).sum
          = ((ks.filter p).map fun k => rows.countP fun x => decide (key x = k)).sum +
            ((ks.filter p).map fun k => if key r = k then (1 : Nat) else 0).sum := by
      rw [← sum_map_add_nat]
    have hind :
        ((ks.filter p).map fun k => if key r = k then (1 : Nat) else 0).sum
          = if p (key r) = true then 1 else 0 := by
      rw [sum_map_indicator (key r) (ks.filter p) (hnd.filter p)]
      by_cases hp : p (key r) = true
      · simp [List.mem_filter, hp, hcov r (List.mem_cons_self r rows)]
      · simp [List.mem_filter, hp]
    rw [hsplit, hind, ih]

theorem filter_map_comm {α β : Type} (f : α → β) (p : β → Bool) :
    ∀ l : List α, (l.map f).filter p = (l.filter fun a => p (f a)).map f
  | [] => rfl
  | a :: l => by
    simp only [List.map_cons, List.filter_cons]
    by_cases h : p (f a) = true
    · simp [h, filter_map_comm f p l]
    · simp [h, filter_map_comm f p l]

theorem filterMap_congr_mem {α β : Type} {f g : α → Option β} :
    ∀ {l : List α}, (∀ a ∈ l, f a = g a) → l.filterMap f = l.filterMap g
  | [], _ => rfl
  | a :: l, h => by
    have ha := h a (List.mem_cons_self a l)
    have hl : ∀ x ∈ l, f x = g x := fun x hx => h x (List.mem_cons_of_mem a hx)
    simp only [List.filterMap_cons, ha, filterMap_congr_mem hl]

theorem length_filterMap_isSome {α β : Type} (f : α → Option β) :
    ∀ l : List α, (l.filterMap f).length = l.countP fun a => (f a).isSome
  | [] => rfl
  | a :: l => by
    rw [List.filterMap_cons, List.countP_cons]
    cases hf : f a with
    | none => simp [hf, length_filterMap_isSome f l]
    | some b => simp [hf, length_filterMap_isSome f l]

/-! ## Concrete inputs used by counterexamples and witnesses -/

/-- The transaction row of the commission-correctness scenario
(`operation_price=100000`, `tipoCom_propietario="3%"`,
`valorCom_propietario=3`, `tipoCom_demandante="fijo"`,
`valorCom_demandante=500`, `valorCom_cliente=0`), given a parseable date
and a closed (`Firmada`) status so that it reaches the cleaned tables. -/
def c1row : Row :=
  [("fecha", .text "05/03/2025"), ("vendedor", .text "Ana"),
   ("tipo", .text "venta"), ("estado", .text "Firmada"),
   ("cod_operacion", .text "OP1"), ("precio_operacion", .text "100000"),
   ("tipoCom_propietario", .text "3%"), ("valorCom_propietario", .text "3"),
   ("tipoCom_demandante", .text "fijo"), ("valorCom_demandante", .text "500"),
   ("valorCom_cliente", .text "0")]

/-- One-row raw transactions frame holding `c1row`. -/
def c1df : DF :=
  ⟨["fecha", "vendedor", "tipo", "estado", "cod_operacion", "precio_operacion",
    "tipoCom_propietario", "valorCom_propietario", "tipoCom_demandante",
    "valorCom_demandante", "tipoCom_cliente", "valorCom_cliente"], [c1row]⟩

/-- A transaction row with a parseable date but a non-closed status. -/
def c2rowPend : Row :=
  [("fecha", .text "01/03/2025"), ("estado", .text "Pendiente"),
   ("vendedor", .text "Ana"), ("cod_operacion", .text "OP2")]

/-- One-row raw transactions frame holding only the pending row. -/
def c2dfPend : DF := ⟨["fecha", "estado", "vendedor", "cod_operacion"], [c2rowPend]⟩

/-- A signed transaction row. -/
def c2rowFirm : Row :=
  [("fecha", .text "02/03/2025"), ("estado", .text "Firmada"),
   ("vendedor", .text "Bea"), ("cod_operacion", .text "OP3")]

/-- Raw transactions frame with one signed and one pending row. -/
def c2dfMix : DF :=
  ⟨["fecha", "estado", "vendedor", "cod_operacion"], [c2rowFirm, c2rowPend]⟩

/-- A signed transaction row whose raw date cannot be parsed. -/
def c3rowBad : Row :=
  [("fecha", .text "pronto"), ("estado", .text "Firmada"),
   ("cod_operacion", .text "X1")]

/-- One-row raw transactions frame holding the bad-date signed row. -/
def c3df : DF := ⟨["fecha", "estado", "cod_operacion"], [c3rowBad]⟩

/-- A raw transactions frame with the right columns and zero rows. -/
def emptyOpsDF : DF := ⟨["fecha", "estado", "cod_operacion", "vendedor"], []⟩

/-- A raw listings frame whose single row has a valid date and no
`agente_captador` entry (the cell is `NaN`). -/
def c8df : DF :=
  ⟨["fechaing", "agente_captador"], [[("fechaing", Cell.text "01/02/2025")]]⟩

/-- The row `clean_inmuebles` produces from `c8df`: note the agent is the
literal string `"nan"`, not `"Desconocido"`, and the type likewise
defaults to `"nan"` because the `tipo_operacion` column is missing. -/
def c8clean : Transform.CleanInm :=
  { fecha := some ⟨2025, 2, 1⟩
    agente := "nan"
    tipo := "nan"
    precio := ⟨0, 1⟩
    precio_total := ⟨0, 1⟩
    anio := some 2025
    mes := some 2 }

/-- A raw listings frame with no date column at all. -/
def c10df : DF := ⟨["agente_captador"], [[("agente_captador", Cell.text "Bea")]]⟩

/-! ## Claims -/

/-- C7 (counterexample): the claim says the numeric coercion used for
prices *and commission values* parses `"1.234,56"` to `1234.56`; but the
commission-value coercion (`_to_num` of `transform_data.py`, used by
`calcular_comision_total`) only swaps the comma and then calls `float`,
so `"1.234,56"` becomes `"1.234.56"`, raises, and coerces to `0.0`. -/
theorem C7_counterexample :
    (to_num_data (Cell.text "1.234,56")).map Dec.toRat = some 0 ∧ (0 : Rat) ≠ 1234.56 := by
  constructor
  · have h : to_num_data (Cell.text "1.234,56") = some ⟨0, 1⟩ := by decide
    rw [h]
    simp [Dec.toRat]
  · norm_num

/-- C7 (amended): the Series coercion `_to_num` of `transform.py` (used
for listing prices and for the commission values of that pipeline) is the
one satisfying the documented examples — `"1.234,56" ↦ 1234.56`,
`"€ 500" ↦ 500.0`, `"abc" ↦ 0.0` — while the scalar `_to_num` of
`transform_data.py` maps `"abc"` and also `"€ 500"` to `0.0`. -/
theorem C7_amended :
    (to_num_series (Cell.text "1.234,56")).toRat = 1234.56 ∧
    (to_num_series (Cell.text "€ 500")).toRat = 500 ∧
    (to_num_series (Cell.text "abc")).toRat = 0 ∧
    (to_num_data (Cell.text "abc")).map Dec.toRat = some 0 ∧
    (to_num_data (Cell.text "€ 500")).map Dec.toRat = some 0 := by
  have h1 : to_num_series (Cell.text "1.234,56") = ⟨123456, 100⟩ := by decide
  have h2 : to_num_series (Cell.text "€ 500") = ⟨500, 1⟩ := by decide
  have h3 : to_num_series (Cell.text "abc") = ⟨0, 1⟩ := by decide
  have h4 : to_num_data (Cell.text "abc") = some ⟨0, 1⟩ := by decide
  have h5 : to_num_data (Cell.text "€ 500") = some ⟨0, 1⟩ := by decide
  refine ⟨?_, ?_, ?_, ?_, ?_⟩
  · rw [h1]; norm_num [Dec.toRat]
  · rw [h2]; norm_num [Dec.toRat]
  · rw [h3]; norm_num [Dec.toRat]
  · rw [h4]; simp [Dec.toRat]
  · rw [h5]; simp [Dec.toRat]

/-- C8 (code bug, evaluation at the failing input): a listings row with a
valid date whose `agente_captador` value is actually absent (`NaN`) is
kept (not dropped), but its cleaned `agente` is the literal string
`"nan"`, not the documented default `"Desconocido"`:
`astype(str)` renders `NaN` as `"nan"`, which the sanitiser's replacement
map (listing only `""`/`"None"`/`"NaN"`) fails to normalise, so the
subsequent `fillna("Desconocido")` never fires.  The empty string,
Python `None` and the literal `"None"` text are normalised as the claim
says. -/
theorem C8_eval :
    (Transform.clean_inmuebles (some c8df)).rows.map (fun r => r.agente) = ["nan"] ∧
    (Transform.clean_inmuebles (some c8df)).rows.length = 1 ∧
    "nan" ≠ "Desconocido" ∧
    sanitizeCell (Cell.text "") = none ∧
    sanitizeCell (Cell.text "  ") = none ∧
    sanitizeCell Cell.null = none ∧
    sanitizeCell (Cell.text "None") = none ∧
    sanitizeCell Cell.absent = some "nan" := by decide

/-- C4 (counterexample): the claim requires every output summary table to
exist with its schema for every input, "including an empty raw table or
an entirely absent domain"; but `generar_resumenes` returns an *empty
dict* — no summary table at all — both when the transactions domain is
absent and when its raw table has zero rows. -/
theorem C4_counterexample :
    TransformData.build_all_resumenes none none none = some ⟨none, none⟩ ∧
    TransformData.generar_resumenes (some emptyOpsDF) = some ⟨none, none⟩ := by decide

/-- C4 (amended): in the `transform.py` pipeline each summary table always
exists with exactly its hard-coded column set even with zero rows, but its
transactions summary has columns `(año, mes, agente, comision_total)` —
there is no operation-count column; the summary with both a commission sum
and an operation count (`total_comision`, `num_ops`) exists only in
`transform_data.py`, whose `generar_resumenes` produces *no* summary table
at all when the transactions domain is absent or empty. -/
theorem C4_amended :
    (∀ i d o : Option DF,
      (Transform.build_all_resumenes i d o).captaciones.cols
          = ["año", "mes", "agente", "tipo", "num_inmuebles"] ∧
      (Transform.build_all_resumenes i d o).demandas.cols
          = ["año", "mes", "agente", "tipo", "num_demandas"] ∧
      (Transform.build_all_resumenes i d o).comisiones.cols
          = ["año", "mes", "agente", "comision_total"]) ∧
    "num_ops" ∉ Transform.comColNames ∧
    TransformData.resColNames = ["año", "mes", "agente", "total_comision", "num_ops"] ∧
    TransformData.build_all_resumenes none none none = some ⟨none, none⟩ ∧
    TransformData.generar_resumenes (some emptyOpsDF) = some ⟨none, none⟩ := by
  refine ⟨?_, by decide, by decide, by decide, by decide⟩
  intro i d o
  refine ⟨?_, ?_, ?_⟩
  · show (Transform.resumen_captaciones (Transform.clean_inmuebles i)).cols = _
    unfold Transform.resumen_captaciones
    split <;> rfl
  · show (Transform.resumen_demandas (Transform.clean_demandas d)).cols = _
    unfold Transform.resumen_demandas
    split <;> rfl
  · show (Transform.resumen_comisiones (Transform.clean_operaciones o)).cols = _
    unfold Transform.resumen_comisiones
    split <;> rfl

/-- C5: `build_all_resumenes` of `transform.py` (the orchestrator that
returns the six-table `PipelineResult` bundle) is total on any subset of
present domains, and every absent (`None`) domain yields the empty cleaned
table and the empty summary table with their fixed schemas. -/
theorem C5_orchestrator (i d o : Option DF) :
    (i = none →
      (Transform.build_all_resumenes i d o).inmuebles_limpio = ⟨Transform.inmColNames, []⟩ ∧
      (Transform.build_all_resumenes i d o).captaciones = ⟨Transform.capColNames, []⟩) ∧
    (d = none →
      (Transform.build_all_resumenes i d o).demandas_limpio = ⟨Transform.demColNames, []⟩ ∧
      (Transform.build_all_resumenes i d o).demandas = ⟨Transform.demColNames2, []⟩) ∧
    (o = none →
      (Transform.build_all_resumenes i d o).operaciones_limpio = ⟨Transform.opColNames, []⟩ ∧
      (Transform.build_all_resumenes i d o).comisiones = ⟨Transform.comColNames, []⟩) := by
  refine ⟨fun hi => ?_, fun hd => ?_, fun ho => ?_⟩
  · subst hi
    exact ⟨rfl,
      show Transform.resumen_captaciones (Transform.clean_inmuebles none) = _ by decide⟩
  · subst hd
    exact ⟨rfl,
      show Transform.resumen_demandas (Transform.clean_demandas none) = _ by decide⟩
  · subst ho
    exact ⟨rfl,
      show Transform.resumen_comisiones (Transform.clean_operaciones none) = _ by decide⟩

/-- C5 witness: the all-absent instance. -/
theorem C5_orchestrator_witness :
    (Transform.build_all_resumenes none none none).inmuebles_limpio
        = ⟨Transform.inmColNames, []⟩ ∧
    (Transform.build_all_resumenes none none none).captaciones
        = ⟨Transform.capColNames, []⟩ :=
  (C5_orchestrator none none none).1 rfl

/-- C1 (counterexample): for the documented commission row (with a valid
date so that it is kept), the cleaned transaction table of the pipeline
`app.py` runs (`transform.py`) carries `comision_total = 503.0` — the
plain sum `3 + 500 + 0` of the three parsed values, ignoring the
percentage kind tag — not the claimed `3500.0`. -/
theorem C1_counterexample :
    ((Transform.clean_operaciones (some c1df)).rows.map fun r => r.comision_total.toRat)
        = [503] ∧ (503 : Rat) ≠ 3500 := by
  constructor
  · have h : (Transform.clean_operaciones (some c1df)).rows.map (fun r => r.comision_total)
        = [⟨503, 1⟩] := by decide
    have h2 := congrArg (List.map Dec.toRat) h
    rw [List.map_map] at h2
    simpa [Dec.toRat] using h2
  · norm_num

/-- C1 (amended): the calculator the claim describes is
`calcular_comision_total` of `transform_data.py`; on the documented row it
yields `100000*3/100 + 500 + 0 = 3500.0`, and the detail table of
*that* pipeline (`generar_resumenes`) carries the value.  The
`transform.py` pipeline instead stores the plain sum of the three parsed
commission values (503.0 here, see the counterexample). -/
theorem C1_amended :
    (TransformData.calcular_comision_total c1df c1row).map Dec.toRat = some 3500 ∧
    (((TransformData.generar_resumenes (some c1df)).getD ⟨none, none⟩).operaciones_limpio.getD
        ⟨[], []⟩).rows.map (fun r => r.comision_total.map Dec.toRat) = [some 3500] := by
  have h1 : TransformData.calcular_comision_total c1df c1row = some ⟨350000, 100⟩ := by decide
  have hval : (⟨350000, 100⟩ : Dec).toRat = 3500 := by norm_num [Dec.toRat]
  constructor
  · rw [h1, Option.map_some', hval]
  · have hr : (((TransformData.generar_resumenes (some c1df)).getD
          ⟨none, none⟩).operaciones_limpio.getD ⟨[], []⟩).rows
        = [TransformData.mkDetalle c1df c1row] := by decide
    rw [hr]
    have hc : (TransformData.mkDetalle c1df c1row).comision_total = some ⟨350000, 100⟩ := h1
    simp [hc, hval]

/-- C2 (counterexample): the cleaned transaction table of the pipeline
`app.py` runs (`clean_operaciones` of `transform.py`) keeps a row whose
raw `estado` is `"Pendiente"` — it applies no status filter at all (the
status is not even a retained column), so "contains a row iff `estado` is
`Firmada` or `Pagado`" fails on the code. -/
theorem C2_counterexample :
    (Transform.clean_operaciones (some c2dfPend)).rows.length = 1 ∧
    rowCell c2rowPend "estado" = Cell.text "Pendiente" ∧
    Cell.text "Pendiente" ≠ Cell.text "Firmada" ∧
    Cell.text "Pendiente" ≠ Cell.text "Pagado" := by decide

/-- C2 (amended): the status filter lives in `generar_resumenes` of
`transform_data.py`: whenever that pipeline returns a detail table, the
table contains a row for a raw row iff the raw `estado` is exactly
`Firmada` or `Pagado`, and the monthly summary is built from exactly the
status-filtered rows; `clean_operaciones` of `transform.py` performs no
such filtering (see the counterexample). -/
theorem C2_amended (df : DF) (out : TransformData.DataOut)
    (t : Table TransformData.DetalleOp)
    (hgen : TransformData.generar_resumenes (some df) = some out)
    (hdet : out.operaciones_limpio = some t) :
    (∀ r ∈ df.rows,
      (TransformData.mkDetalle df r ∈ t.rows ↔ TransformData.estadoValido r = true)) ∧
    out.comisiones
      = some (TransformData.mkResumen df (df.rows.filter TransformData.estadoValido)) ∧
    (∀ df' : DF, (Transform.clean_operaciones (some df')).rows.length
      = df'.rows.countP fun r => (Transform.fechaOf df' r "fecha").isSome) := by
  have hnofilter : ∀ df' : DF, (Transform.clean_operaciones (some df')).rows.length
      = df'.rows.countP fun r => (Transform.fechaOf df' r "fecha").isSome := by
    intro df'
    show (List.filterMap _ df'.rows).length = _
    rw [length_filterMap_isSome]
    apply List.countP_congr
    intro r _
    cases hfa : Transform.fechaOf df' r "fecha" with
    | none => simp [hfa]
    | some dt => simp [hfa]
  have hg2 : TransformData.generar_resumenes (some df)
      = (if df.rows = [] ∨ df.cols = [] then some ⟨none, none⟩
         else if "estado" ∉ df.cols then none
         else if df.rows.filter TransformData.estadoValido ≠ [] ∧ "cod_operacion" ∉ df.cols
           then none
         else some ⟨some (TransformData.mkResumen df
                (df.rows.filter TransformData.estadoValido)),
              some ⟨TransformData.detColNames,
                (df.rows.filter TransformData.estadoValido).map
                  (TransformData.mkDetalle df)⟩⟩) := rfl
  rw [hg2] at hgen
  by_cases hA : df.rows = [] ∨ df.cols = []
  case pos =>
    rw [if_pos hA] at hgen
    cases hgen
    exact Option.noConfusion hdet
  case neg =>
  rw [if_neg hA] at hgen
  by_cases hB : "estado" ∉ df.cols
  case pos =>
    rw [if_pos hB] at hgen
    exact Option.noConfusion hgen
  case neg =>
  rw [if_neg hB] at hgen
  by_cases hC : df.rows.filter TransformData.estadoValido ≠ [] ∧ "cod_operacion" ∉ df.cols
  case pos =>
    rw [if_pos hC] at hgen
    exact Option.noConfusion hgen
  case neg =>
  rw [if_neg hC] at hgen
  cases hgen
  cases hdet
  refine ⟨fun r hr => ?_, rfl, hnofilter⟩
  constructor
  · intro hm
    obtain ⟨r', hr', heq⟩ := List.mem_map.mp hm
    have hest : rowCell r' "estado" = rowCell r "estado" :=
      congrArg TransformData.DetalleOp.estado heq
    have hv' : TransformData.estadoValido r' = true := (List.mem_filter.mp hr').2
    unfold TransformData.estadoValido at hv' ⊢
    rwa [hest] at hv'
  · intro hv
    exact List.mem_map_of_mem _ (List.mem_filter.mpr ⟨hr, hv⟩)

/-- C2 witness: on a mixed frame the signed row's detail is present and
the pending row's detail is not. -/
theorem C2_amended_witness :
    TransformData.mkDetalle c2dfMix c2rowFirm
        ∈ (c2dfMix.rows.filter TransformData.estadoValido).map
            (TransformData.mkDetalle c2dfMix) ∧
    TransformData.mkDetalle c2dfMix c2rowPend
        ∉ (c2dfMix.rows.filter TransformData.estadoValido).map
            (TransformData.mkDetalle c2dfMix) := by
  have h := C2_amended c2dfMix
    ⟨some (TransformData.mkResumen c2dfMix (c2dfMix.rows.filter TransformData.estadoValido)),
      some ⟨TransformData.detColNames,
        (c2dfMix.rows.filter TransformData.estadoValido).map (TransformData.mkDetalle c2dfMix)⟩⟩
    ⟨TransformData.detColNames,
      (c2dfMix.rows.filter TransformData.estadoValido).map (TransformData.mkDetalle c2dfMix)⟩
    (by decide) rfl
  constructor
  · exact (h.1 c2rowFirm (by decide)).mpr (by decide)
  · intro hm
    exact absurd ((h.1 c2rowPend (by decide)).mp hm) (by decide)

/-- C3 (counterexample): the cleaned transaction detail table produced by
`generar_resumenes` of `transform_data.py` keeps a signed row whose raw
date is unparseable — the row survives with a null date, so "every row of
the cleaned (detail) table has a non-null parsed date" fails on the code. -/
theorem C3_counterexample :
    (((TransformData.generar_resumenes (some c3df)).getD ⟨none, none⟩).operaciones_limpio.getD
        ⟨[], []⟩).rows.map (fun r => r.fecha) = [none] := by decide

/-- C3 (amended): in the `transform.py` pipeline the invariant holds for
all three domains: every row of each cleaned table has a parsed date, and
its `año`/`mes` are exactly that date's calendar year and month;
the `transform_data.py` detail table violates it (see the
counterexample). -/
theorem C3_amended :
    (∀ (d : Option DF), ∀ r ∈ (Transform.clean_inmuebles d).rows,
      ∃ dt : SDate, r.fecha = some dt ∧ r.anio = some dt.year ∧ r.mes = some dt.month) ∧
    (∀ (d : Option DF), ∀ r ∈ (Transform.clean_demandas d).rows,
      ∃ dt : SDate, r.fecha = some dt ∧ r.anio = some dt.year ∧ r.mes = some dt.month) ∧
    (∀ (d : Option DF), ∀ r ∈ (Transform.clean_operaciones d).rows,
      ∃ dt : SDate, r.fecha = some dt ∧ r.anio = some dt.year ∧ r.mes = some dt.month) := by
  refine ⟨?_, ?_, ?_⟩
  · intro d r hr
    match d with
    | none => simp [Transform.clean_inmuebles] at hr
    | some df =>
      simp only [Transform.clean_inmuebles] at hr
      obtain ⟨a, ha, heq⟩ := List.mem_filterMap.mp hr
      cases hfa : Transform.fechaOf df a "fechaing" with
      | none => rw [hfa] at heq; cases heq
      | some dt =>
        rw [hfa] at heq
        cases heq
        exact ⟨dt, rfl, rfl, rfl⟩
  · intro d r hr
    match d with
    | none => simp [Transform.clean_demandas] at hr
    | some df =>
      simp only [Transform.clean_demandas] at hr
      obtain ⟨a, ha, heq⟩ := List.mem_filterMap.mp hr
      cases hfa : Transform.fechaOf df a "fec_alta" with
      | none => rw [hfa] at heq; cases heq
      | some dt =>
        rw [hfa] at heq
        cases heq
        exact ⟨dt, rfl, rfl, rfl⟩
  · intro d r hr
    match d with
    | none => simp [Transform.clean_operaciones] at hr
    | some df =>
      simp only [Transform.clean_operaciones] at hr
      obtain ⟨a, ha, heq⟩ := List.mem_filterMap.mp hr
      cases hfa : Transform.fechaOf df a "fecha" with
      | none => rw [hfa] at heq; cases heq
      | some dt =>
        rw [hfa] at heq
        cases heq
        exact ⟨dt, rfl, rfl, rfl⟩

/-- C3 witness: the cleaned row of `c8df` carries its parsed date's year
and month. -/
theorem C3_amended_witness :
    ∃ dt : SDate, c8clean.fecha = some dt ∧ c8clean.anio = some dt.year ∧
      c8clean.mes = some dt.month :=
  C3_amended.1 (some c8df) c8clean (by decide)

/-- The four domain keys of `TARGETS` are pairwise distinct. -/
theorem targets_keys_inj :
    ∀ x ∈ XmlLoader.targets, ∀ y ∈ XmlLoader.targets, x.1 = y.1 → x = y := by decide

/-- C6 (counterexample): the claim's matching rule (case-insensitive
substring `INMUEBLES`) matches the member `INMUEBLES_old.xml`, so per the
claim this source supplies a domain and must load; but the code matches
the full expected file name `INMUEBLES.xml` as a substring, finds no
member, and raises. -/
theorem C6_counterexample :
    XmlLoader.load_zip_names ["INMUEBLES_old.xml"] = none ∧
    XmlLoader.containsCI "INMUEBLES_old.xml" "INMUEBLES" = true := by decide

/-- C6 (amended): loading raises iff no member name contains one of the
expected **file names** `INMUEBLES.xml`, `DEMANDAS.xml`, `OPERACIONES.xml`,
`USUARIOS.xml` (case-insensitively); a source matching at least one but
not all domains loads, and exactly the matched domains appear in the
returned mapping. -/
theorem C6_amended (names : List String) :
    (XmlLoader.load_zip_names names = none ↔
      ∀ kp ∈ XmlLoader.targets, ∀ n ∈ names, XmlLoader.containsCI n kp.2 = false) ∧
    (∀ kp ∈ XmlLoader.targets,
      ((∃ v, (kp.1, v) ∈ (XmlLoader.load_zip_names names).getD []) ↔
        ∃ n ∈ names, XmlLoader.containsCI n kp.2 = true)) := by
  have hfm : ∀ p : String,
      (XmlLoader.find_member names p = none ↔
        ∀ n ∈ names, XmlLoader.containsCI n p = false) := by
    intro p
    unfold XmlLoader.find_member
    simp [List.find?_eq_none]
  have hload : XmlLoader.load_zip_names names
      = (if (XmlLoader.targets.filterMap fun kp =>
              (XmlLoader.find_member names kp.2).map fun m => (kp.1, m)) = []
         then none
         else some (XmlLoader.targets.filterMap fun kp =>
              (XmlLoader.find_member names kp.2).map fun m => (kp.1, m))) := rfl
  constructor
  · constructor
    · intro h kp hkp n hn
      by_cases ho : (XmlLoader.targets.filterMap fun kp =>
          (XmlLoader.find_member names kp.2).map fun m => (kp.1, m)) = []
      · have hnone := List.filterMap_eq_nil_iff.mp ho kp hkp
        have hfind : XmlLoader.find_member names kp.2 = none := by
          cases hcase : XmlLoader.find_member names kp.2 with
          | none => rfl
          | some v => rw [hcase] at hnone; exact Option.noConfusion hnone
        exact (hfm kp.2).mp hfind n hn
      · rw [hload, if_neg ho] at h
        exact Option.noConfusion h
    · intro h
      have ho : (XmlLoader.targets.filterMap fun kp =>
          (XmlLoader.find_member names kp.2).map fun m => (kp.1, m)) = [] := by
        apply List.filterMap_eq_nil_iff.mpr
        intro kp hkp
        rw [(hfm kp.2).mpr (h kp hkp)]
        rfl
      rw [hload, if_pos ho]
  · intro kp hkp
    constructor
    · rintro ⟨v, hv⟩
      by_cases ho : (XmlLoader.targets.filterMap fun kp =>
          (XmlLoader.find_member names kp.2).map fun m => (kp.1, m)) = []
      · rw [hload, if_pos ho] at hv
        simp at hv
      · rw [hload, if_neg ho] at hv
        have hv' : (kp.1, v) ∈ XmlLoader.targets.filterMap fun kp =>
            (XmlLoader.find_member names kp.2).map fun m => (kp.1, m) := hv
        obtain ⟨kp', hkp', hmap⟩ := List.mem_filterMap.mp hv'
        obtain ⟨m, hfind, heq⟩ := Option.map_eq_some'.mp hmap
        injection heq with h1 h2
        have hkpeq : kp' = kp := targets_keys_inj kp' hkp' kp hkp h1
        subst hkpeq
        subst h2
        unfold XmlLoader.find_member at hfind
        have hpm := List.find?_some hfind
        exact ⟨m, List.mem_of_find?_eq_some hfind, hpm⟩
    · rintro ⟨n, hn, hc⟩
      have hsome : (XmlLoader.find_member names kp.2).isSome := by
        unfold XmlLoader.find_member
        rw [List.find?_isSome]
        exact ⟨n, hn, hc⟩
      obtain ⟨v, hv⟩ := Option.isSome_iff_exists.mp hsome
      have hmem : (kp.1, v) ∈ XmlLoader.targets.filterMap fun kp =>
          (XmlLoader.find_member names kp.2).map fun m => (kp.1, m) :=
        List.mem_filterMap.mpr ⟨kp, hkp, by rw [hv]; rfl⟩
      have ho := List.ne_nil_of_mem hmem
      refine ⟨v, ?_⟩
      rw [hload, if_neg ho]
      exact hmem

/-- C6 witness: a source with a single member whose name contains
`OPERACIONES.xml` loads, and the `operaciones` domain is present. -/
theorem C6_amended_witness :
    ∃ v, ("operaciones", v) ∈ (XmlLoader.load_zip_names ["mini_OPERACIONES.xml"]).getD [] := by
  have h := (C6_amended ["mini_OPERACIONES.xml"]).2
    ("operaciones", "OPERACIONES.xml") (by decide)
  exact h.mpr ⟨"mini_OPERACIONES.xml", by decide, by decide⟩

/-- A column all of whose row entries are missing behaves exactly like a
column that is not in the frame at all. -/
theorem dfCell_filter_eq (df : DF) (c : String) (r : Row)
    (hr : rowCell r c = Cell.absent) (c' : String) :
    dfCell ⟨df.cols.filter (fun x => x ≠ c), df.rows⟩ r c' = dfCell df r c' := by
  simp only [dfCell]
  by_cases hcc : c' = c
  · subst hcc
    by_cases h2 : c' ∈ df.cols <;> simp [List.mem_filter, h2, hr]
  · by_cases h2 : c' ∈ df.cols <;> simp [List.mem_filter, h2, hcc]

/-- C10: each per-domain cleaner is total with a fixed output schema; a
missing source column acts as an all-null column (e.g. a listings frame
with no `precio` column yields prices `0.0`, and one with no `fechaing`
column yields an empty cleaned table), and dropping an all-null column
from the frame leaves the cleaned output unchanged. -/
theorem C10_cleaners_total :
    (∀ i : Option DF, (Transform.clean_inmuebles i).cols = Transform.inmColNames) ∧
    (∀ d : Option DF, (Transform.clean_demandas d).cols = Transform.demColNames) ∧
    (∀ o : Option DF, (Transform.clean_operaciones o).cols = Transform.opColNames) ∧
    (∀ df : DF, "precio" ∉ df.cols →
      ∀ r ∈ (Transform.clean_inmuebles (some df)).rows, r.precio.toRat = 0) ∧
    (∀ df : DF, "fechaing" ∉ df.cols → (Transform.clean_inmuebles (some df)).rows = []) ∧
    (∀ (df : DF) (c : String), (∀ r ∈ df.rows, rowCell r c = Cell.absent) →
      Transform.clean_inmuebles (some ⟨df.cols.filter (fun x => x ≠ c), df.rows⟩)
        = Transform.clean_inmuebles (some df)) := by
  refine ⟨?_, ?_, ?_, ?_, ?_, ?_⟩
  · intro i; cases i <;> rfl
  · intro d; cases d <;> rfl
  · intro o; cases o <;> rfl
  · intro df hp r hr
    simp only [Transform.clean_inmuebles] at hr
    obtain ⟨a, ha, heq⟩ := List.mem_filterMap.mp hr
    cases hfa : Transform.fechaOf df a "fechaing" with
    | none => rw [hfa] at heq; cases heq
    | some dt =>
      rw [hfa] at heq
      cases heq
      show (to_num_series (dfCell df a "precio")).toRat = 0
      have habs : dfCell df a "precio" = Cell.absent := by
        unfold dfCell
        rw [if_neg hp]
      rw [habs]
      have h0 : to_num_series Cell.absent = ⟨0, 1⟩ := by decide
      rw [h0]
      simp [Dec.toRat]
  · intro df hf
    show List.filterMap _ df.rows = []
    apply List.filterMap_eq_nil_iff.mpr
    intro a ha
    have habs : dfCell df a "fechaing" = Cell.absent := by
      unfold dfCell
      rw [if_neg hf]
    have hfa : Transform.fechaOf df a "fechaing" = none := by
      unfold Transform.fechaOf
      rw [habs]
      decide
    rw [hfa]
  · intro df c hc
    show Table.mk _ _ = Table.mk _ _
    apply congrArg (Table.mk Transform.inmColNames)
    show List.filterMap _ df.rows = List.filterMap _ df.rows
    apply filterMap_congr_mem
    intro a ha
    simp only [Transform.fechaOf, dfCell_filter_eq df c a (hc a ha)]

/-- C10 witness: a listings frame with no date column cleans to zero rows. -/
theorem C10_cleaners_total_witness :
    (Transform.clean_inmuebles (some c10df)).rows = [] :=
  C10_cleaners_total.2.2.2.2.1 c10df (by decide)

/-- C9: for every cleaned listings table and every `(year, month)`, the
sum of `num_inmuebles` over the listings-summary rows of that year and
month equals the number of cleaned listing rows with that year and month. -/
theorem C9_roundtrip (t : Table Transform.CleanInm) (y m : Nat) :
    (((Transform.resumen_captaciones t).rows.filter fun s =>
        decide (s.anio = some y) && decide (s.mes = some m)).map fun s =>
          s.num_inmuebles).sum
      = t.rows.countP fun r => decide (r.anio = some y) && decide (r.mes = some m) := by
  by_cases h0 : t.rows = []
  · have hre : Transform.resumen_captaciones t = ⟨Transform.capColNames, []⟩ := by
      unfold Transform.resumen_captaciones
      rw [if_pos h0]
    rw [hre, h0]
    rfl
  · have hrows : (Transform.resumen_captaciones t).rows
        = (List.insertionSort (fun a b => Transform.key4Le a b = true)
            ((t.rows.filter fun r => r.anio.isSome && r.mes.isSome).map
              Transform.capKey).dedup).map
          (fun k => (⟨k.1, k.2.1, k.2.2.1, k.2.2.2,
            (t.rows.filter fun r => r.anio.isSome && r.mes.isSome).countP fun r =>
              decide (Transform.capKey r = k)⟩ : Transform.ResCapt)) := by
      unfold Transform.resumen_captaciones
      rw [if_neg h0]
    rw [hrows, filter_map_comm, List.map_map]
    dsimp only [Function.comp_def]
    have hperm :
        ((List.insertionSort (fun a b => Transform.key4Le a b = true)
            ((t.rows.filter fun r => r.anio.isSome && r.mes.isSome).map
              Transform.capKey).dedup).filter fun k =>
                decide (k.1 = some y) && decide (k.2.1 = some m)).map
          (fun k => (t.rows.filter fun r => r.anio.isSome && r.mes.isSome).countP fun r =>
            decide (Transform.capKey r = k))
        |>.Perm
          ((((t.rows.filter fun r => r.anio.isSome && r.mes.isSome).map
              Transform.capKey).dedup.filter fun k =>
                decide (k.1 = some y) && decide (k.2.1 = some m)).map
            (fun k => (t.rows.filter fun r => r.anio.isSome && r.mes.isSome).countP fun r =>
              decide (Transform.capKey r = k))) :=
      ((List.perm_insertionSort _ _).filter _).map _
    rw [hperm.sum_eq]
    have hgroups := sum_countP_groups Transform.capKey
      (fun k => decide (k.1 = some y) && decide (k.2.1 = some m))
      (t.rows.filter fun r => r.anio.isSome && r.mes.isSome)
      ((t.rows.filter fun r => r.anio.isSome && r.mes.isSome).map Transform.capKey).dedup
      (List.nodup_dedup _)
      (fun r hr => List.mem_dedup.mpr (List.mem_map_of_mem _ hr))
    rw [hgroups, List.countP_filter]
    apply List.countP_congr
    intro r _
    constructor
    · intro h
      have h1 : r.anio = some y := by
        have := (Bool.and_eq_true _ _).mp ((Bool.and_eq_true _ _).mp h).1
        exact of_decide_eq_true this.1
      have h2 : r.mes = some m := by
        have := (Bool.and_eq_true _ _).mp ((Bool.and_eq_true _ _).mp h).1
        exact of_decide_eq_true this.2
      simp [h1, h2]
    · intro h
      have h1 : r.anio = some y := of_decide_eq_true ((Bool.and_eq_true _ _).mp h).1
      have h2 : r.mes = some m := of_decide_eq_true ((Bool.and_eq_true _ _).mp h).2
      simp [Transform.capKey, h1, h2]
